import Mathlib

/-!
# Verification of the Hermes VM core: OldGen slow allocation, exception
# unwinding, and the GetById inline cache

Shallow embedding of the relevant parts of:
* `lib/VM/gcs/OldGenNC.cpp` (old-generation slow allocation path),
* `lib/VM/Interpreter.cpp` (exception unwind loop, `CASE(GetById)`),
* `lib/BCGen/HBC/BytecodeDataProvider.cpp` (`findCatchTargetOffset`),
* `include/hermes/VM/PropertyCache.h` (`PropertyCacheEntry`).
-/

namespace Hermes

/-! ## Tagged values

A `HermesValue` is a 64-bit NaN-boxed tagged word (spec section 3.1).  We embed it as a
tagged variant; the payloads that are raw bit patterns in the source (doubles,
native values) are carried as inert numbers, since none of the code embedded
here computes with them. -/

/-- Shallow embedding of `HermesValue`: one constructor per tag kind. -/
inductive HValue where
  | undefined : HValue
  | null : HValue
  | boolean (b : Bool) : HValue
  | number (bits : Nat) : HValue
  | str (s : String) : HValue
  | object (id : Nat) : HValue
  | symbol (id : Nat) : HValue
  | nativeValue (payload : Nat) : HValue
  | empty : HValue
deriving DecidableEq, Repr

/-! ## Exception tables and the catch-target search

From `lib/BCGen/HBC/BytecodeDataProvider.cpp` (`BCProviderBase::findCatchTargetOffset`)
and the exception unwind loop at the bottom of `Interpreter::interpretFunction`
in `lib/VM/Interpreter.cpp`. -/

/-- One exception-handler table entry (`HBCExceptionHandlerInfo`): a
`[start, end)` bytecode range and the handler's target offset.  All three
fields are `uint32_t` in the source. -/
structure ExceptionEntry where
  start : Nat
  end_ : Nat
  target : Nat
deriving DecidableEq, Repr

/-- Conversion of a `uint32_t` to the `int32_t` return type of
`findCatchTargetOffset` (two's complement reinterpretation). -/
def toInt32 (n : Nat) : Int :=
  if n % 2 ^ 32 < 2 ^ 31 then (n % 2 ^ 32 : Int) else (n % 2 ^ 32 : Int) - 2 ^ 32

/-- `BCProviderBase::findCatchTargetOffset`: scan the function's exception
table in order and return the target of the first entry whose
`[start, end)` range contains `exceptionOffset`; return `-1` if no entry
covers the offset. -/
def findCatchTargetOffset : List ExceptionEntry → Nat → Int
  | [], _ => -1
  | e :: rest, exceptionOffset =>
    if e.start ≤ exceptionOffset ∧ exceptionOffset < e.end_ then toInt32 e.target
    else findCatchTargetOffset rest exceptionOffset

/-- The slice of a `CodeBlock` the unwind loop consults: its exception
table (reached in the source through
`curCodeBlock->findCatchTargetOffset(CUROFFSET)`). -/
structure CodeBlock where
  exceptionTable : List ExceptionEntry
deriving DecidableEq, Repr

/-- The slice of a stack-frame header the unwind loop touches: the saved
caller code block (`FRAME.getSavedCodeBlock()`, null when the frame was
entered from native code) and the offset of the saved instruction pointer
inside that code block (`FRAME.getSavedIP()`). -/
structure StackFrame where
  savedCodeBlock : Option CodeBlock
  savedIPOffset : Nat
deriving DecidableEq, Repr

/-- Outcome of the exception unwind loop in `Interpreter::interpretFunction`.
`handler` resumes execution in code block `cb` at `handlerOffset`
(`ip = IPADD(handlerOffset - CUROFFSET)`) with the remaining frame stack and
the thrown value still in the runtime's thrown-value slot; `exceptionToNative`
is `return ExecutionStatus::EXCEPTION` with the thrown value still in the
slot.  `outOfFrames` is unreachable in the VM: the frame pushed at every
native entry has a null saved code block, so the walk always ends in
`exceptionToNative` at the latest there. -/
inductive UnwindResult where
  | handler (cb : CodeBlock) (handlerOffset : Int) (frames : List StackFrame)
      (thrownValue : HValue) : UnwindResult
  | exceptionToNative (thrownValue : HValue) : UnwindResult
  | outOfFrames : UnwindResult
deriving DecidableEq, Repr

/-- The exception unwind loop of `Interpreter::interpretFunction`
(`lib/VM/Interpreter.cpp`, the `while ((handlerOffset = ...) == -1)` loop):
while the current code block's catch table has no entry covering the current
offset, restore the caller's code block and IP from the frame header, pop the
frame, and — if the restored code block is null — return
`ExecutionStatus::EXCEPTION` to native code.  When a handler is found, jump
to its offset in the current code block.  Nothing in the loop writes the
runtime's thrown-value slot, so `thrownValue` is threaded through unchanged. -/
def unwindException : HValue → CodeBlock → Nat → List StackFrame → UnwindResult
  | thrownValue, curCodeBlock, curOffset, frames =>
    if findCatchTargetOffset curCodeBlock.exceptionTable curOffset ≠ -1 then
      UnwindResult.handler curCodeBlock
        (findCatchTargetOffset curCodeBlock.exceptionTable curOffset) frames thrownValue
    else
      match frames with
      | [] => UnwindResult.outOfFrames
      | f :: rest =>
        match f.savedCodeBlock with
        | none => UnwindResult.exceptionToNative thrownValue
        | some cb => unwindException thrownValue cb f.savedIPOffset rest

/-- `CASE(Throw)` in `Interpreter::interpretFunction`: write the operand
register into `runtime->thrownValue_` and `goto exception`, entering the
unwind loop at the current instruction's offset. -/
def throwInstr (operand : HValue) (curCodeBlock : CodeBlock) (curOffset : Nat)
    (frames : List StackFrame) : UnwindResult :=
  unwindException operand curCodeBlock curOffset frames

/-! ## Old-generation slow allocation path

From `lib/VM/gcs/OldGenNC.cpp`: `OldGen::growToFit`,
`OldGen::trailingExternalMemory`, `OldGen::fullCollectThenAlloc`,
`OldGen::allocRawSlow` and `OldGen::allocSlow`.  The subroutines these call
that live in headers or files not present in the repository slice
(`GenGC::collect`, `GCGeneration::allocRaw`, `OldGen::adjustSize`,
`OldGen::seedSegmentCacheForSize`'s storage provider, segment bookkeeping)
are abstracted as components of an `OldGenModel` over an opaque heap-state
type `σ`; the control flow of the functions above is translated literally. -/

/-- `AllocResult` (`include/hermes/VM/AllocResult.h`): a raw-allocation
result, `{void *ptr; bool success}`.  The pointer is `none` exactly on
failure. -/
structure AllocResult where
  ptr : Option Nat
  success : Bool
deriving DecidableEq, Repr

/-- The environment of the old generation's slow allocation path: the
operations called by `OldGen::allocSlow` / `fullCollectThenAlloc` /
`growToFit` whose definitions are outside the embedded files, as
state-passing functions over an opaque heap state `σ`.

`collect` embeds `GenGC::collect(/* canEffectiveOOM */ true)`: a `void`
function in the source, hence a total function `σ → σ` here — a full
collection always completes and has no failure outcome. -/
structure OldGenModel (σ : Type) where
  collect : σ → σ
  allocRaw : σ → Nat → Bool → AllocResult × σ
  levelOffset : σ → Nat
  externalMemory : σ → Nat
  fragmentationLoss : σ → Nat
  adjustSize : Nat → Nat
  seedSegmentCacheForSize : σ → Nat → Bool × σ
  growTo : σ → Nat → σ
  maxSegmentSize : Nat
  materializeNextSegment : σ → Bool × σ

/-- `OldGen::trailingExternalMemory`: the external memory charge left over
after "filling up" fragmentation losses in filled segments. -/
def trailingExternalMemory {σ : Type} (m : OldGenModel σ) (s : σ) : Nat :=
  let fragLoss := m.fragmentationLoss s
  if fragLoss > m.externalMemory s then 0 else m.externalMemory s - fragLoss

/-- `OldGen::growToFit(amount)`: fail if the adjusted size wraps below the
request (insufficient space within the configured maximum), or if the
segment cache cannot be seeded with enough segments to back the growth;
otherwise grow to the adjusted size and succeed. -/
def growToFit {σ : Type} (m : OldGenModel σ) (s : σ) (amount : Nat) : Bool × σ :=
  let unavailable := m.levelOffset s + trailingExternalMemory m s
  let adjusted := m.adjustSize (unavailable + amount)
  if adjusted < unavailable + amount then (false, s)
  else
    let seeded := m.seedSegmentCacheForSize s (m.levelOffset s + amount)
    if seeded.1 = false then (false, seeded.2)
    else (true, m.growTo seeded.2 adjusted)

/-- Outcome of the slow allocation path.  `ok` returns an `AllocResult` to
the caller.

`oomRangeError` models the call `gc_->oom()`.  Modelled from the spec:
`GenGC::oom` is declared in `GC.h`, which is not part of the repository
slice; per the spec (section 4.2.6 "Failure semantics" and section 7 "Error handling
design"), when the heap cannot satisfy an allocation after collection the
runtime raises a RangeError ("out of memory") JS exception, and `oom` does
not return to its caller. -/
inductive SlowAllocOutcome (σ : Type) where
  | ok (res : AllocResult) (s : σ) : SlowAllocOutcome σ
  | oomRangeError (s : σ) : SlowAllocOutcome σ

/-- `OldGen::fullCollectThenAlloc(allocSize, hasFinalizer)`: run a full
collection, retry the raw allocation, and if it still fails try
`growToFit`; on successful growth the retried allocation is asserted to
succeed; if the generation cannot grow, `gc_->oom()`. -/
def fullCollectThenAlloc {σ : Type} (m : OldGenModel σ) (s : σ) (allocSize : Nat)
    (hasFinalizer : Bool) : SlowAllocOutcome σ :=
  let s1 := m.collect s
  let r1 := m.allocRaw s1 allocSize hasFinalizer
  if r1.1.success then SlowAllocOutcome.ok r1.1 r1.2
  else
    let g := growToFit m r1.2 allocSize
    if g.1 then
      let r2 := m.allocRaw g.2 allocSize hasFinalizer
      SlowAllocOutcome.ok r2.1 r2.2
    else
      SlowAllocOutcome.oomRangeError g.2

/-- `OldGen::allocRawSlow(size, hasFinalizer)`: sizes beyond a segment's
capacity go straight to `gc_->oom()`; otherwise materialize the next
segment (failing with a null `AllocResult` if none can be) and retry the
raw allocation in it. -/
def allocRawSlow {σ : Type} (m : OldGenModel σ) (s : σ) (size : Nat)
    (hasFinalizer : Bool) : SlowAllocOutcome σ :=
  if size > m.maxSegmentSize then SlowAllocOutcome.oomRangeError s
  else
    let mat := m.materializeNextSegment s
    if mat.1 = false then SlowAllocOutcome.ok ⟨none, false⟩ mat.2
    else
      let r := m.allocRaw mat.2 size hasFinalizer
      SlowAllocOutcome.ok r.1 r.2

/-- `OldGen::allocSlow(size, hasFinalizer)`: try `allocRawSlow`; on failure
fall back to `fullCollectThenAlloc`. -/
def allocSlow {σ : Type} (m : OldGenModel σ) (s : σ) (size : Nat)
    (hasFinalizer : Bool) : SlowAllocOutcome σ :=
  match allocRawSlow m s size hasFinalizer with
  | SlowAllocOutcome.ok res s1 =>
    if res.success then SlowAllocOutcome.ok res s1
    else fullCollectThenAlloc m s1 size hasFinalizer
  | SlowAllocOutcome.oomRangeError s1 => SlowAllocOutcome.oomRangeError s1

/-! ## GetById and the per-call-site property cache

From `CASE(GetById)` / `getById:` in `lib/VM/Interpreter.cpp` and
`PropertyCacheEntry` in `include/hermes/VM/PropertyCache.h`.  `JSObject` and
`HiddenClass` themselves live in files outside the repository slice (only
their callers are present), so their lookup primitives are modelled from the
spec (sections 3.3, 4.4.4 and 4.4.5). -/

/-- A symbol id: an interned identifier, a compact integer (spec section 3.8). -/
abbrev SymbolID := Nat

/-- Property flags; the interpreter's fast path only inspects `accessor`. -/
structure PropertyFlags where
  writable : Bool
  enumerable : Bool
  configurable : Bool
  accessor : Bool
deriving DecidableEq, Repr

/-- `NamedPropertyDescriptor`: a property's slot index and flags. -/
structure NamedPropertyDescriptor where
  flags : PropertyFlags
  slot : Nat
deriving DecidableEq, Repr

/-- Modelled from the spec: `HiddenClass` (`HiddenClass.h` is not under the
repository slice).  Per spec section 3.3 a hidden class carries, once populated, a
full property table mapping symbol → (slot, flags), and a dictionary-mode
flag; `classId` stands for the class object's identity, so that equality of
embedded classes plays the role of the pointer comparison
`cacheEntry->clazz == clazz` in the source. -/
structure HiddenClass where
  classId : Nat
  isDictionary : Bool
  propertyMap : List (SymbolID × NamedPropertyDescriptor)
deriving DecidableEq, Repr

/-- Modelled from the spec: `HiddenClass::findProperty` — search the class's
property table for a symbol (spec section 4.5 `find_property`). -/
def findProperty (clazz : HiddenClass) (id : SymbolID) : Option NamedPropertyDescriptor :=
  (clazz.propertyMap.find? (fun p => p.1 = id)).map (fun p => p.2)

/-- Modelled from the spec: the named-property storage of a `JSObject` (spec
section 3.3): its hidden class and the slot-indexed property storage. -/
structure JSObject where
  clazz : HiddenClass
  namedSlots : List HValue
deriving DecidableEq, Repr

/-- Modelled from the spec: `JSObject::getNamedSlotValue` — read the value
stored at a property slot of the receiver. -/
def getNamedSlotValue (obj : JSObject) (slot : Nat) : HValue :=
  obj.namedSlots.getD slot HValue.empty

/-- Modelled from the spec: `JSObject::tryGetOwnNamedDescriptorFast` — the
own-property fast lookup, resolving a symbol through the receiver's hidden
class without touching the prototype chain. -/
def tryGetOwnNamedDescriptorFast (obj : JSObject) (id : SymbolID) :
    Option NamedPropertyDescriptor :=
  findProperty obj.clazz id

/-- Modelled from the spec: the result of a full (own, non-accessor)
property lookup on a receiver — resolve the symbol through the hidden class
and read the resulting slot (spec section 4.4.4: "On miss, look up via the hidden
class"). -/
def getNamedOwnData (obj : JSObject) (id : SymbolID) : Option HValue :=
  (findProperty obj.clazz id).map (fun desc => getNamedSlotValue obj desc.slot)

/-- `PropertyCacheEntry` (`include/hermes/VM/PropertyCache.h`): a cached
hidden class (`HiddenClass *clazz{nullptr}` — `none` models the null
pointer) and a cached property slot index. -/
structure PropertyCacheEntry where
  clazz : Option HiddenClass
  slot : Nat
deriving DecidableEq, Repr

/-- `hbc::PROPERTY_CACHING_DISABLED`: the reserved cache index meaning "no
caching at this site".  Its value is pinned by the interpreter's own comment
at the cache update ("cacheIdx == 0 indicates no caching so don't update the
cache in those cases"). -/
def PROPERTY_CACHING_DISABLED : Nat := 0

/-- Result of one `GetById` execution: the produced value together with the
call site's cache entry after the instruction, or an exception propagated
from the slow path (`goto exception`). -/
inductive GetByIdResult where
  | ok (v : HValue) (cache : PropertyCacheEntry) : GetByIdResult
  | exception (cache : PropertyCacheEntry) : GetByIdResult
deriving DecidableEq, Repr

/-- The object-receiver path of `CASE(GetById)` in
`lib/VM/Interpreter.cpp` (`getById:` label), for a receiver that is an
object.  `getNamed` abstracts `JSObject::getNamed` (prototype walk and
accessor invocation — outside the repository slice), which the source
reaches when the fast lookup fails or finds an accessor; it may throw.

Control flow translated from the source:
1. if the cache entry's class equals the receiver's class, return the value
   at the cached slot (cache hit; no state change);
2. otherwise, if `tryGetOwnNamedDescriptorFast` finds a descriptor that is
   not an accessor: overwrite the cache with (class, slot) provided the
   class is not in dictionary mode and `cacheIdx` is not the reserved
   no-caching index, and return the value at the descriptor's slot;
3. otherwise fall through to `JSObject::getNamed`, propagating an exception
   if it throws. -/
def getById (getNamed : JSObject → SymbolID → Except Unit HValue)
    (obj : JSObject) (id : SymbolID) (cacheIdx : Nat)
    (cacheEntry : PropertyCacheEntry) : GetByIdResult :=
  let clazz := obj.clazz
  if cacheEntry.clazz = some clazz then
    GetByIdResult.ok (getNamedSlotValue obj cacheEntry.slot) cacheEntry
  else
    match tryGetOwnNamedDescriptorFast obj id with
    | some desc =>
      if desc.flags.accessor then
        match getNamed obj id with
        | Except.ok v => GetByIdResult.ok v cacheEntry
        | Except.error _ => GetByIdResult.exception cacheEntry
      else
        let cacheEntry' :=
          if clazz.isDictionary = false ∧ cacheIdx ≠ PROPERTY_CACHING_DISABLED then
            { clazz := some clazz, slot := desc.slot }
          else cacheEntry
        GetByIdResult.ok (getNamedSlotValue obj desc.slot) cacheEntry'
    | none =>
      match getNamed obj id with
      | Except.ok v => GetByIdResult.ok v cacheEntry
      | Except.error _ => GetByIdResult.exception cacheEntry

/-- A cache entry is valid for symbol `id` when the class it caches (if
any) resolves `id` to a non-accessor property at exactly the cached slot.
Entries observed by the interpreter satisfy this: they start out null and
are only written on the fast path below. -/
def cacheValidFor (id : SymbolID) (e : PropertyCacheEntry) : Prop :=
  ∀ clazz, e.clazz = some clazz →
    ∃ desc, findProperty clazz id = some desc ∧
      desc.flags.accessor = false ∧ e.slot = desc.slot

/-! ## Theorems -/

/-- The unwind loop never changes the runtime's thrown-value slot: whenever
it exits to native code with `ExecutionStatus::EXCEPTION`, the value in the
slot is the value that was thrown. -/
theorem unwindException_toNative_thrown (tv v : HValue) :
    ∀ (frames : List StackFrame) (cb : CodeBlock) (off : Nat),
      unwindException tv cb off frames = UnwindResult.exceptionToNative v → v = tv := by
  intro frames
  induction frames with
  | nil =>
    intro cb off h
    rw [unwindException] at h
    split at h
    · exact absurd h (by simp)
    · exact absurd h (by simp)
  | cons f rest ih =>
    intro cb off h
    rw [unwindException] at h
    split at h
    · exact absurd h (by simp)
    · cases hsv : f.savedCodeBlock with
      | none =>
        rw [hsv] at h
        simp only [UnwindResult.exceptionToNative.injEq] at h
        exact h.symm
      | some cb2 =>
        rw [hsv] at h
        exact ih cb2 f.savedIPOffset h

/-- **C2.** When a value is thrown and the current function's catch table has
no entry covering the current instruction offset
(`findCatchTargetOffset ... = -1`), the interpreter pops the current frame,
restores the caller's saved code block and IP, and resumes the handler
search in the caller; if the popped frame returns to native code (no caller
code block), the unwind loop returns `ExecutionStatus::EXCEPTION` with the
thrown value remaining in the thrown-value slot. -/
theorem unwind_no_handler_pops_frame (tv : HValue) (cb : CodeBlock) (off : Nat)
    (f : StackFrame) (rest : List StackFrame)
    (hmiss : findCatchTargetOffset cb.exceptionTable off = -1) :
    (∀ cb2, f.savedCodeBlock = some cb2 →
        unwindException tv cb off (f :: rest) =
          unwindException tv cb2 f.savedIPOffset rest) ∧
    (f.savedCodeBlock = none →
        unwindException tv cb off (f :: rest) = UnwindResult.exceptionToNative tv) ∧
    (∀ v, unwindException tv cb off (f :: rest) = UnwindResult.exceptionToNative v →
        v = tv) := by
  refine ⟨?_, ?_, ?_⟩
  · intro cb2 hsv
    rw [unwindException]
    simp [hmiss, hsv]
  · intro hsv
    rw [unwindException]
    simp [hmiss, hsv]
  · intro v h
    exact unwindException_toNative_thrown tv v (f :: rest) cb off h

/-- Concrete fixtures for the C2 witness: a throwing function whose catch
table is empty, whose frame was entered directly from native code. -/
def unwindWitnessCodeBlock : CodeBlock := { exceptionTable := [] }

/-- The native-entry frame for the C2 witness: null saved code block. -/
def unwindWitnessFrame : StackFrame := { savedCodeBlock := none, savedIPOffset := 0 }

/-- Witness for C2: with an empty catch table at offset 3 and a native-entry
frame, the unwind loop propagates `EXCEPTION` with the thrown string
`"boom"` still in the thrown-value slot. -/
theorem unwind_no_handler_pops_frame_witness :
    findCatchTargetOffset unwindWitnessCodeBlock.exceptionTable 3 = -1 ∧
    unwindException (HValue.str "boom") unwindWitnessCodeBlock 3 [unwindWitnessFrame] =
      UnwindResult.exceptionToNative (HValue.str "boom") :=
  ⟨by decide,
   (unwind_no_handler_pops_frame (HValue.str "boom") unwindWitnessCodeBlock 3
       unwindWitnessFrame [] (by decide)).2.1 rfl⟩

/-- **C1.** If an old-generation allocation still cannot be satisfied after a
full collection (`allocRaw` fails on the post-collection state) and the
generation cannot grow to fit the request within the configured maximum heap
size (`growToFit` returns `false`), then `OldGen::fullCollectThenAlloc`
signals OOM — which, modelled from the spec, raises a RangeError
("out of memory") JS exception.  Collection itself never fails: `collect` is
embedded as the total function `σ → σ` that the `void`-returning
`GenGC::collect` is, so every path through `fullCollectThenAlloc` runs it to
completion and the only failure outcome of the slow path is the RangeError
OOM. -/
theorem fullCollectThenAlloc_oom_raises_rangeError {σ : Type} (m : OldGenModel σ) (s : σ)
    (allocSize : Nat) (hasFinalizer : Bool)
    (hAllocFail : (m.allocRaw (m.collect s) allocSize hasFinalizer).1.success = false)
    (hNoGrow :
      (growToFit m (m.allocRaw (m.collect s) allocSize hasFinalizer).2 allocSize).1 = false) :
    fullCollectThenAlloc m s allocSize hasFinalizer =
      SlowAllocOutcome.oomRangeError
        (growToFit m (m.allocRaw (m.collect s) allocSize hasFinalizer).2 allocSize).2 := by
  unfold fullCollectThenAlloc
  simp [hAllocFail, hNoGrow]

/-- Concrete fixture for the C1 witness: a one-state heap whose raw
allocations always fail, whose size adjustment is the identity, and whose
segment cache can never be seeded — so growth is impossible. -/
def oomWitnessModel : OldGenModel Unit where
  collect := id
  allocRaw := fun s _ _ => (⟨none, false⟩, s)
  levelOffset := fun _ => 0
  externalMemory := fun _ => 0
  fragmentationLoss := fun _ => 0
  adjustSize := fun n => n
  seedSegmentCacheForSize := fun s _ => (false, s)
  growTo := fun s _ => s
  maxSegmentSize := 4194304
  materializeNextSegment := fun s => (false, s)

/-- Witness for C1: on the fixture model, a 16-byte request fails after the
full collection, growth fails, and `fullCollectThenAlloc` produces the
RangeError OOM outcome. -/
theorem fullCollectThenAlloc_oom_raises_rangeError_witness :
    (oomWitnessModel.allocRaw (oomWitnessModel.collect ()) 16 false).1.success = false ∧
    (growToFit oomWitnessModel
      (oomWitnessModel.allocRaw (oomWitnessModel.collect ()) 16 false).2 16).1 = false ∧
    fullCollectThenAlloc oomWitnessModel () 16 false =
      SlowAllocOutcome.oomRangeError
        (growToFit oomWitnessModel
          (oomWitnessModel.allocRaw (oomWitnessModel.collect ()) 16 false).2 16).2 :=
  ⟨rfl, rfl, fullCollectThenAlloc_oom_raises_rangeError oomWitnessModel () 16 false rfl rfl⟩

/-- Concrete fixtures for C3: a non-dictionary hidden class mapping symbol
`7` to a non-accessor property at slot `0`. -/
def c3Class : HiddenClass :=
  { classId := 1
    isDictionary := false
    propertyMap := [(7, { flags := ⟨true, true, true, false⟩, slot := 0 })] }

/-- The descriptor `c3Class` assigns to symbol `7`. -/
def c3Desc : NamedPropertyDescriptor := { flags := ⟨true, true, true, false⟩, slot := 0 }

/-- A receiver of class `c3Class` holding `3` in slot `0`. -/
def c3Obj : JSObject := { clazz := c3Class, namedSlots := [HValue.number 3] }

/-- Slow-path stand-in for C3 fixtures (never reached on the inputs used). -/
def c3GetNamed : JSObject → SymbolID → Except Unit HValue := fun _ _ => Except.error ()

/-- A cache entry in its initial state (`clazz{nullptr}`, slot `0`). -/
def c3Entry : PropertyCacheEntry := { clazz := none, slot := 0 }

/-- Counterexample to C3 as stated: a `GetById` execution whose call site
carries the reserved no-caching cache index (`hbc::PROPERTY_CACHING_DISABLED`,
i.e. `0`).  The receiver is an object, the cache misses, the own-property
fast lookup finds a non-accessor property, and the receiver's class is not a
dictionary — yet the cache entry is left untouched rather than overwritten
with the (hidden class, slot) pair, because the interpreter skips the update
when `cacheIdx == PROPERTY_CACHING_DISABLED`. -/
theorem getById_disabled_cache_not_overwritten :
    c3Entry.clazz ≠ some c3Obj.clazz ∧
    tryGetOwnNamedDescriptorFast c3Obj 7 = some c3Desc ∧
    c3Desc.flags.accessor = false ∧
    c3Obj.clazz.isDictionary = false ∧
    getById c3GetNamed c3Obj 7 PROPERTY_CACHING_DISABLED c3Entry =
      GetByIdResult.ok (HValue.number 3) c3Entry ∧
    c3Entry ≠ { clazz := some c3Obj.clazz, slot := c3Desc.slot } := by
  decide

/-- **C3 (amended).** For every `GetById` execution on an object receiver,
with the call site's cache entry valid for the instruction's symbol (as every
entry the interpreter produces is — see the third conjunct):
1. if the cache entry holds the receiver's current hidden class, the cached
   slot index is read directly, the cache is unchanged, and the result equals
   what a full property lookup on the unchanged receiver returns;
2. on a miss where the own-property fast lookup finds a non-accessor
   property, the receiver's class is not in dictionary mode, *and the call
   site's cache index is not the reserved caching-disabled index* (the
   condition the original claim omits), the cache entry is overwritten with
   the new (hidden class, slot) pair;
3. every non-throwing execution leaves the cache entry valid for the symbol,
   so the validity hypothesis is an invariant of the interpreter. -/
theorem getById_cache_correct
    (getNamed : JSObject → SymbolID → Except Unit HValue)
    (obj : JSObject) (id : SymbolID) (cacheIdx : Nat) (e : PropertyCacheEntry)
    (hvalid : cacheValidFor id e) :
    (e.clazz = some obj.clazz →
      getById getNamed obj id cacheIdx e =
        GetByIdResult.ok (getNamedSlotValue obj e.slot) e ∧
      getNamedOwnData obj id = some (getNamedSlotValue obj e.slot)) ∧
    (∀ desc, e.clazz ≠ some obj.clazz →
      tryGetOwnNamedDescriptorFast obj id = some desc →
      desc.flags.accessor = false →
      obj.clazz.isDictionary = false →
      cacheIdx ≠ PROPERTY_CACHING_DISABLED →
      getById getNamed obj id cacheIdx e =
        GetByIdResult.ok (getNamedSlotValue obj desc.slot)
          { clazz := some obj.clazz, slot := desc.slot }) ∧
    (∀ v e2, getById getNamed obj id cacheIdx e = GetByIdResult.ok v e2 →
      cacheValidFor id e2) := by
  refine ⟨?_, ?_, ?_⟩
  · intro hhit
    obtain ⟨desc, hfind, hacc, hslot⟩ := hvalid obj.clazz hhit
    refine ⟨?_, ?_⟩
    · unfold getById
      simp [hhit]
    · unfold getNamedOwnData
      rw [hfind, hslot]
      rfl
  · intro desc hne hfast hacc hdict hidx
    unfold getById
    simp [hne, hfast, hacc, hdict, hidx]
  · intro v e2 h
    unfold getById at h
    by_cases hhit : e.clazz = some obj.clazz
    · simp only [if_pos hhit, GetByIdResult.ok.injEq] at h
      rw [← h.2]
      exact hvalid
    · simp only [if_neg hhit] at h
      cases hfast : tryGetOwnNamedDescriptorFast obj id with
      | none =>
        rw [hfast] at h
        cases hg : getNamed obj id with
        | ok w =>
          rw [hg] at h
          simp only [GetByIdResult.ok.injEq] at h
          rw [← h.2]
          exact hvalid
        | error u =>
          rw [hg] at h
          exact absurd h (by simp)
      | some desc =>
        rw [hfast] at h
        by_cases hacc : desc.flags.accessor
        · simp only [if_pos hacc] at h
          cases hg : getNamed obj id with
          | ok w =>
            rw [hg] at h
            simp only [GetByIdResult.ok.injEq] at h
            rw [← h.2]
            exact hvalid
          | error u =>
            rw [hg] at h
            exact absurd h (by simp)
        · simp only [if_neg hacc] at h
          by_cases hupd : obj.clazz.isDictionary = false ∧ cacheIdx ≠ PROPERTY_CACHING_DISABLED
          · simp only [if_pos hupd, GetByIdResult.ok.injEq] at h
            rw [← h.2]
            intro clazz hc
            simp only [Option.some.injEq] at hc
            refine ⟨desc, ?_, ?_, rfl⟩
            · rw [← hc]
              exact hfast
            · simpa using hacc
          · simp only [if_neg hupd, GetByIdResult.ok.injEq] at h
            rw [← h.2]
            exact hvalid

/-- Fixtures for the C3 witness: a cache entry already holding `c3Class`
with the correct slot for symbol `7`. -/
def c3HitEntry : PropertyCacheEntry := { clazz := some c3Class, slot := 0 }

/-- Witness for the amended C3: the validity hypothesis holds for
`c3HitEntry` at symbol `7`, and applying the theorem's hit-path conjunct on
the concrete receiver yields the cached-slot read with the cache unchanged,
agreeing with the full lookup. -/
theorem getById_cache_correct_witness :
    cacheValidFor 7 c3HitEntry ∧
    getById c3GetNamed c3Obj 7 1 c3HitEntry =
      GetByIdResult.ok (getNamedSlotValue c3Obj c3HitEntry.slot) c3HitEntry ∧
    getNamedOwnData c3Obj 7 = some (getNamedSlotValue c3Obj c3HitEntry.slot) := by
  have hv : cacheValidFor 7 c3HitEntry := by
    intro clazz hc
    simp only [c3HitEntry, Option.some.injEq] at hc
    exact ⟨c3Desc, by rw [← hc]; decide, by decide, by decide⟩
  have h := (getById_cache_correct c3GetNamed c3Obj 7 1 c3HitEntry hv).1 rfl
  exact ⟨hv, h.1, h.2⟩

end Hermes
